import Mathlib

/-!
# Verification of the rust-blockchain-portfolio core

A shallow embedding, in Lean 4, of the core of the repository:

* `ibc-light-client/src/lib.rs` — the Tendermint-style threshold light client
  (`TendermintHeader.digest`, `LightClient::verify_header`, `LightClient::new`);
* `zk-circuit/src/lib.rs` — the `AddCircuit` constraint synthesizer over the
  arkworks R1CS interface, and the setup path of `ZkProver`;
* `cosmwasm-verifier/src/lib.rs` — the contract endpoint (`execute`/`query`).

Bytes are modelled as `Nat` values below 256, byte strings as `List Nat`, and
`u64` arithmetic as `Nat` with an explicit `% 2 ^ 64` exactly where the Rust
code can overflow (release semantics: wrapping).  SHA-256 is implemented
concretely (FIPS 180-4), since both the header digest and the validator
address derivation hash with `sha2::Sha256`.  The Ed25519 primitives
(`VerifyingKey::from_bytes` and `verify`) are the one abstraction: they enter
as an explicit `Ed25519` record of oracles, so every theorem about
`verify_header` is quantified over the behaviour of the signature scheme.
-/

/-! ## SHA-256 (FIPS 180-4), executable over byte lists -/

/-- Truncate to a 32-bit word. -/
def w32 (x : Nat) : Nat := x % 2 ^ 32

/-- Right rotation of a 32-bit word by `n` bits. -/
def rotr32 (n x : Nat) : Nat := w32 ((x >>> n) ||| (x <<< (32 - n)))

/-- Bitwise complement of a 32-bit word. -/
def not32 (x : Nat) : Nat := x ^^^ (2 ^ 32 - 1)

/-- The SHA-256 round constants K. -/
def shaK : List Nat :=
  [1116352408, 1899447441, 3049323471, 3921009573, 961987163,
   1508970993, 2453635748, 2870763221, 3624381080, 310598401,
   607225278, 1426881987, 1925078388, 2162078206, 2614888103,
   3248222580, 3835390401, 4022224774, 264347078, 604807628,
   770255983, 1249150122, 1555081692, 1996064986, 2554220882,
   2821834349, 2952996808, 3210313671, 3336571891, 3584528711,
   113926993, 338241895, 666307205, 773529912, 1294757372,
   1396182291, 1695183700, 1986661051, 2177026350, 2456956037,
   2730485921, 2820302411, 3259730800, 3345764771, 3516065817,
   3600352804, 4094571909, 275423344, 430227734, 506948616,
   659060556, 883997877, 958139571, 1322822218, 1537002063,
   1747873779, 1955562222, 2024104815, 2227730452, 2361852424,
   2428436474, 2756734187, 3204031479, 3329325298]

/-- Working registers of the SHA-256 compression function. -/
structure ShaRegs where
  ra : Nat
  rb : Nat
  rc : Nat
  rd : Nat
  re : Nat
  rf : Nat
  rg : Nat
  rh : Nat

/-- Initial hash value H⁽⁰⁾. -/
def shaH0 : ShaRegs :=
  ⟨1779033703, 3144134277, 1013904242, 2773480762,
   1359893119, 2600822924, 528734635, 1541459225⟩

/-- A 32-bit word as four big-endian bytes. -/
def be4 (x : Nat) : List Nat :=
  [x / 2 ^ 24 % 256, x / 2 ^ 16 % 256, x / 2 ^ 8 % 256, x % 256]

/-- A 64-bit quantity as eight big-endian bytes (the layout of
`u64::to_be_bytes`). -/
def u64be (x : Nat) : List Nat :=
  [x / 2 ^ 56 % 256, x / 2 ^ 48 % 256, x / 2 ^ 40 % 256, x / 2 ^ 32 % 256,
   x / 2 ^ 24 % 256, x / 2 ^ 16 % 256, x / 2 ^ 8 % 256, x % 256]

/-- SHA-256 padding: append `0x80`, then zeros to 56 mod 64, then the bit
length as eight big-endian bytes. -/
def shaPad (msg : List Nat) : List Nat :=
  msg ++ 0x80 :: List.replicate ((119 - msg.length % 64) % 64) 0
      ++ u64be (msg.length * 8)

/-- The first sixteen 32-bit message-schedule words of a 64-byte block. -/
def shaW16 (block : List Nat) : List Nat :=
  (List.range 16).map fun i =>
    block.getD (4 * i) 0 * 2 ^ 24 + block.getD (4 * i + 1) 0 * 2 ^ 16 +
    block.getD (4 * i + 2) 0 * 2 ^ 8 + block.getD (4 * i + 3) 0

/-- Extend the message schedule to 64 words. -/
def shaSchedule (block : List Nat) : List Nat :=
  (List.range 48).foldl
    (fun w _ =>
      let t := w.length
      let s0 := rotr32 7 (w.getD (t - 15) 0) ^^^ rotr32 18 (w.getD (t - 15) 0)
        ^^^ (w.getD (t - 15) 0 >>> 3)
      let s1 := rotr32 17 (w.getD (t - 2) 0) ^^^ rotr32 19 (w.getD (t - 2) 0)
        ^^^ (w.getD (t - 2) 0 >>> 10)
      w ++ [w32 (w.getD (t - 16) 0 + s0 + w.getD (t - 7) 0 + s1)])
    (shaW16 block)

/-- One SHA-256 round: absorb one round constant and schedule word into the
registers. -/
def shaRound (r : ShaRegs) (kw : Nat × Nat) : ShaRegs :=
  let bigS1 := rotr32 6 r.re ^^^ rotr32 11 r.re ^^^ rotr32 25 r.re
  let ch := (r.re &&& r.rf) ^^^ (not32 r.re &&& r.rg)
  let temp1 := w32 (r.rh + bigS1 + ch + kw.1 + kw.2)
  let bigS0 := rotr32 2 r.ra ^^^ rotr32 13 r.ra ^^^ rotr32 22 r.ra
  let maj := (r.ra &&& r.rb) ^^^ (r.ra &&& r.rc) ^^^ (r.rb &&& r.rc)
  let temp2 := w32 (bigS0 + maj)
  ⟨w32 (temp1 + temp2), r.ra, r.rb, r.rc, w32 (r.rd + temp1), r.re, r.rf, r.rg⟩

/-- Compress one 64-byte block into the running hash state. -/
def shaCompress (st : ShaRegs) (block : List Nat) : ShaRegs :=
  let r := (shaK.zip (shaSchedule block)).foldl shaRound st
  ⟨w32 (st.ra + r.ra), w32 (st.rb + r.rb), w32 (st.rc + r.rc),
   w32 (st.rd + r.rd), w32 (st.re + r.re), w32 (st.rf + r.rf),
   w32 (st.rg + r.rg), w32 (st.rh + r.rh)⟩

/-- Split a byte list into 64-byte chunks; the fuel argument keeps the
recursion structural so the kernel can evaluate it. -/
def chunks64Aux : Nat → List Nat → List (List Nat)
  | 0, _ => []
  | _ + 1, [] => []
  | fuel + 1, l => l.take 64 :: chunks64Aux fuel (l.drop 64)

/-- Split a byte list into 64-byte chunks. -/
def chunks64 (l : List Nat) : List (List Nat) := chunks64Aux l.length l

/-- The final hash state as 32 big-endian bytes. -/
def ShaRegs.toBytes (s : ShaRegs) : List Nat :=
  be4 s.ra ++ be4 s.rb ++ be4 s.rc ++ be4 s.rd ++
  be4 s.re ++ be4 s.rf ++ be4 s.rg ++ be4 s.rh

/-- SHA-256 of a byte list, as 32 bytes. -/
def sha256 (msg : List Nat) : List Nat :=
  ((chunks64 (shaPad msg)).foldl shaCompress shaH0).toBytes

/-! ## The light client (`ibc-light-client/src/lib.rs`) -/

/-- `Validator { pub_key: Vec<u8>, voting_power: u64 }`. -/
structure Validator where
  pub_key : List Nat
  voting_power : Nat
deriving DecidableEq

/-- `ValidatorSet { validators: Vec<Validator>, total_voting_power: u64 }`. -/
structure ValidatorSet where
  validators : List Validator
  total_voting_power : Nat
deriving DecidableEq

/-- `CommitSignature { validator_address: [u8; 20], signature: Vec<u8> }`. -/
structure CommitSig where
  validator_address : List Nat
  signature : List Nat
deriving DecidableEq

/-- `TendermintHeader`; `time` is the raw bytes of the timestamp string, and
the two hashes are byte lists (32 bytes in the Rust types). -/
structure TendermintHeader where
  height : Nat
  time : List Nat
  app_hash : List Nat
  validators_hash : List Nat
  commit_signatures : List CommitSig
deriving DecidableEq

/-- The incremental `sha2::Sha256` hasher: its state is the byte stream
absorbed so far. -/
def Hasher := List Nat

/-- `Sha256::new()`. -/
def Hasher.new : Hasher := []

/-- `hasher.update(data)` absorbs more bytes. -/
def Hasher.update (st : Hasher) (data : List Nat) : Hasher :=
  List.append st data

/-- `hasher.finalize()`. -/
def Hasher.finalize (st : Hasher) : List Nat := sha256 st

/-- `TendermintHeader::digest`: hash height (big-endian), the time string's
bytes, `app_hash` and `validators_hash`, in that order, exactly as the four
`update` calls in the source. -/
def TendermintHeader.digest (h : TendermintHeader) : List Nat :=
  (((Hasher.new.update (u64be h.height)).update h.time).update
      h.app_hash).update h.validators_hash |>.finalize

/-- The Ed25519 oracles abstracting `ed25519_dalek`:
`decodes` models whether `VerifyingKey::from_bytes` succeeds on 32 key bytes,
`valid` models whether `key.verify(msg, sig)` returns `Ok` (arguments: key
bytes, message, signature bytes). -/
structure Ed25519 where
  decodes : List Nat → Bool
  valid : List Nat → List Nat → List Nat → Bool

/-- The error cases `verify_header` can surface: the two `anyhow!` length
errors, and the `?`-propagated `VerifyingKey::from_bytes` failure. -/
inductive LcError where
  | invalidPublicKeyLength
  | invalidSignatureLength
  | keyDecodeFailure
deriving DecidableEq

deriving instance DecidableEq for Except

/-- The `find` over the validator list: the first validator whose
`SHA-256(pub_key)[0..20]` equals the commit signature's address. -/
def findValidator (vs : ValidatorSet) (cs : CommitSig) : Option Validator :=
  vs.validators.find? fun v => (sha256 v.pub_key).take 20 == cs.validator_address

/-- One iteration of the `for commit_sig in &header.commit_signatures` loop:
given the accumulated `signing_power`, process one commit signature.  Length
checks come before key decoding, which comes before signature verification;
an unmatched address is skipped; a valid signature adds the validator's
voting power with u64 wrapping. -/
def processSig (ed : Ed25519) (vs : ValidatorSet) (dgst : List Nat)
    (acc : Nat) (cs : CommitSig) : Except LcError Nat :=
  match findValidator vs cs with
  | none => .ok acc
  | some v =>
    if v.pub_key.length ≠ 32 then .error .invalidPublicKeyLength
    else if cs.signature.length ≠ 64 then .error .invalidSignatureLength
    else if ¬ ed.decodes v.pub_key then .error .keyDecodeFailure
    else if ed.valid v.pub_key dgst cs.signature then
      .ok ((acc + v.voting_power) % 2 ^ 64)
    else .ok acc

/-- The whole signature loop: fold `processSig` from `signing_power = 0`,
stopping at the first error exactly as `?` does in the source. -/
def accumulatePower (ed : Ed25519) (vs : ValidatorSet)
    (h : TendermintHeader) : Except LcError Nat :=
  h.commit_signatures.foldlM (processSig ed vs h.digest) 0

/-- `required_power = (total_voting_power * 2) / 3` in u64 arithmetic: the
multiplication wraps modulo 2^64 (release semantics) before the integer
division. -/
def requiredPower (total : Nat) : Nat := total * 2 % 2 ^ 64 / 3

/-- `LightClient { trusted_validators: ValidatorSet }`. -/
structure LightClient where
  trusted_validators : ValidatorSet

/-- `LightClient::new` stores the validator set unconditionally. -/
def LightClient.new (validators : ValidatorSet) : LightClient :=
  ⟨validators⟩

/-- `LightClient::verify_header`: accumulate signing power over the commit
signatures, then accept iff it strictly exceeds the required power. -/
def LightClient.verify_header (ed : Ed25519) (lc : LightClient)
    (header : TendermintHeader) : Except LcError Bool :=
  (accumulatePower ed lc.trusted_validators header).map fun signing_power =>
    decide (signing_power > requiredPower lc.trusted_validators.total_voting_power)

/-- `verify_header` as a function of the validator set (the client is just a
wrapper around its trusted set). -/
def verifyHeader (ed : Ed25519) (vs : ValidatorSet)
    (header : TendermintHeader) : Except LcError Bool :=
  (LightClient.new vs).verify_header ed header

/-- `LightClient::extract_app_hash`. -/
def LightClient.extract_app_hash (_lc : LightClient)
    (header : TendermintHeader) : List Nat :=
  header.app_hash

/-- The sum the `ValidatorSet` invariant speaks about:
`sum(v.voting_power for v in validators)`. -/
def sumVotingPower (vs : ValidatorSet) : Nat :=
  (vs.validators.map Validator.voting_power).sum

/-! ## Concrete fixtures for witnesses and counterexamples -/

/-- An oracle under which every 32-byte key decodes and every signature
verifies. -/
def edAcceptAll : Ed25519 := ⟨fun _ => true, fun _ _ _ => true⟩

/-- A 32-byte public key. -/
def pkA : List Nat := List.replicate 32 1

/-- A second 32-byte public key. -/
def pkB : List Nat := List.replicate 32 2

/-- A third 32-byte public key. -/
def pkC : List Nat := List.replicate 32 3

/-- A 31-byte (malformed) public key. -/
def pkShort : List Nat := List.replicate 31 5

/-- The validator address of a public key: first 20 bytes of its SHA-256. -/
def addrOf (pk : List Nat) : List Nat := (sha256 pk).take 20

/-- A well-formed 64-byte signature blob. -/
def sig64 : List Nat := List.replicate 64 7

/-- A malformed 63-byte signature blob. -/
def sig63 : List Nat := List.replicate 63 7

/-- Three equal-weight validators, total power 300 (the scenario of §8 of the
spec). -/
def vset3 : ValidatorSet := ⟨[⟨pkA, 100⟩, ⟨pkB, 100⟩, ⟨pkC, 100⟩], 300⟩

/-- Unequal weights: the outer validators alone clear the threshold. -/
def vsetWeighted : ValidatorSet := ⟨[⟨pkA, 200⟩, ⟨pkB, 100⟩, ⟨pkC, 200⟩], 500⟩

/-- Total voting power `2 ^ 63`, the smallest total whose doubling wraps in
u64; the per-validator powers still sum to the total. -/
def vsetHuge : ValidatorSet := ⟨[⟨pkA, 1⟩, ⟨pkB, 2 ^ 63 - 1⟩], 2 ^ 63⟩

/-- A set whose recorded total (999) disagrees with the real sum (100). -/
def badSet : ValidatorSet := ⟨[⟨pkA, 100⟩], 999⟩

/-- The same validators as `badSet` with the correct total. -/
def goodSet : ValidatorSet := ⟨[⟨pkA, 100⟩], 100⟩

/-- A single-validator set with a 31-byte public key. -/
def vsetShort : ValidatorSet := ⟨[⟨pkShort, 10⟩], 10⟩

/-- The empty validator set. -/
def vsetEmpty : ValidatorSet := ⟨[], 0⟩

/-- A commit signature from `pkA` (well-formed length). -/
def csA : CommitSig := ⟨addrOf pkA, sig64⟩

/-- A commit signature from `pkB` (well-formed length). -/
def csB : CommitSig := ⟨addrOf pkB, sig64⟩

/-- A commit signature from `pkC` (well-formed length). -/
def csC : CommitSig := ⟨addrOf pkC, sig64⟩

/-- A commit signature pointing at the malformed 31-byte key. -/
def csShort : CommitSig := ⟨addrOf pkShort, sig64⟩

/-- A commit signature with a 63-byte signature, addressed to `pkShort` (a
key outside the sets it is tested against). -/
def csBadLen : CommitSig := ⟨addrOf pkShort, sig63⟩

/-- A commit signature whose address matches no validator of `vset3`. -/
def csUnknown : CommitSig := ⟨List.replicate 20 9, sig64⟩

/-- A header with the given commit signatures (other fields fixed). -/
def mkHeader (sigs : List CommitSig) : TendermintHeader :=
  ⟨1000, [], List.replicate 32 42, List.replicate 32 24, sigs⟩

/-- An oracle that refuses to decode `pkB` but accepts everything else. -/
def edRejectB : Ed25519 := ⟨fun pk => !(pk == pkB), fun _ _ _ => true⟩

/-! ## The constraint synthesizer (`zk-circuit/src/lib.rs`) -/

/-- The BN254 scalar field modulus (the `Fr` of `ark_bn254`). -/
def bn254r : Nat :=
  21888242871839275222246405745257275088548364400416034343698204186575808495617

/-- The arkworks `Fr` field. -/
abbrev Fr := ZMod bn254r

/-- `SynthesisError`: the one case this circuit can raise. -/
inductive SynthErr where
  | assignmentMissing
deriving DecidableEq

/-- The synthesis mode of an arkworks `ConstraintSystem`: `setup` builds only
the shape, `prove` also stores the assignment (ark-relations
`SynthesisMode`). -/
inductive SynthMode where
  | setup
  | prove
deriving DecidableEq

/-- The slice of the arkworks `ConstraintSystemRef` state this circuit
touches: the mode, the stored assignments, and how many constraints were
enforced. -/
structure R1CS where
  mode : SynthMode
  instAssignment : List Fr
  witAssignment : List Fr
  numConstraints : Nat

/-- A field variable; in prove mode it carries its concrete value. -/
structure FrVar where
  value : Option Fr

/-- `FpVar::new_input` via ark-relations `new_input_variable`: in setup mode
the value closure is never consulted; in prove mode a missing value is
`AssignmentMissing` (`self.a.ok_or(SynthesisError::AssignmentMissing)`). -/
def newInput (cs : R1CS) (v : Option Fr) : Except SynthErr (FrVar × R1CS) :=
  match cs.mode with
  | .setup => .ok (⟨none⟩, cs)
  | .prove =>
    match v with
    | none => .error .assignmentMissing
    | some x =>
      .ok (⟨some x⟩, { cs with instAssignment := cs.instAssignment ++ [x] })

/-- `FpVar::new_witness`, same discipline on the witness assignment. -/
def newWitness (cs : R1CS) (v : Option Fr) : Except SynthErr (FrVar × R1CS) :=
  match cs.mode with
  | .setup => .ok (⟨none⟩, cs)
  | .prove =>
    match v with
    | none => .error .assignmentMissing
    | some x =>
      .ok (⟨some x⟩, { cs with witAssignment := cs.witAssignment ++ [x] })

/-- Variable addition (`a_var + b_var`). -/
def FrVar.add (x y : FrVar) : FrVar :=
  ⟨match x.value, y.value with
   | some a, some b => some (a + b)
   | _, _ => none⟩

/-- `enforce_equal` records one constraint and cannot fail for these
variables. -/
def enforceEqual (cs : R1CS) (_x _y : FrVar) : R1CS :=
  { cs with numConstraints := cs.numConstraints + 1 }

/-- `AddCircuit { a: Option<Fr>, c: Option<Fr>, b: Option<Fr> }`, fields in
source order (`a` and `c` public, `b` the private witness). -/
structure AddCircuit where
  a : Option Fr
  c : Option Fr
  b : Option Fr

/-- `AddCircuit::generate_constraints`, in source order: allocate `a` as
input, `b` as witness, `c` as input, then enforce `c = a + b`. -/
def generate_constraints (circ : AddCircuit) (cs : R1CS) :
    Except SynthErr R1CS := do
  let (aVar, cs1) ← newInput cs circ.a
  let (bVar, cs2) ← newWitness cs1 circ.b
  let (cVar, cs3) ← newInput cs2 circ.c
  let sum := aVar.add bVar
  pure (enforceEqual cs3 cVar sum)

/-- A fresh constraint system in the given mode. -/
def freshCS (m : SynthMode) : R1CS := ⟨m, [], [], 0⟩

/-- The synthesis step of `ZkProver::setup`: the dummy circuit (all values
`None`) run through constraint generation in setup mode. -/
def setupSynthesize : Except SynthErr R1CS :=
  generate_constraints ⟨none, none, none⟩ (freshCS .setup)

/-! ## The contract endpoint (`cosmwasm-verifier/src/lib.rs`) -/

/-- What the contract could durably store: a latest `(app_hash, height)`
pair.  The source never writes any storage, so the content after
`instantiate` persists unchanged. -/
structure ContractState where
  latest : Option (String × Nat)
deriving DecidableEq

/-- `instantiate` writes nothing: the storage starts (and stays) empty. -/
def instantiateContract : ContractState := ⟨none⟩

/-- `GetLatestAppHashResponse` with its `Option` fields. -/
structure LatestAppHashResponse where
  app_hash : Option String
  height : Option Nat
deriving DecidableEq

/-- `query(GetLatestAppHash)`: the source ignores storage and returns a
hard-coded pair. -/
def queryLatestAppHash (_st : ContractState) : LatestAppHashResponse :=
  ⟨some "demo_app_hash", some 1000⟩

/-- `verify_proof`: the source reads neither the proof nor the inputs nor
storage, writes nothing, and answers with fixed attributes. -/
def verify_proof (st : ContractState) (_proof _publicInputs : List Nat) :
    ContractState × List (String × String) :=
  (st, [("method", "verify_proof"), ("result", "verified"),
        ("tokens_minted", "1")])

/-! ## Helper lemmas -/

/-- Any register state serializes to exactly 32 bytes. -/
theorem ShaRegs.length_toBytes (s : ShaRegs) : s.toBytes.length = 32 := by
  simp [ShaRegs.toBytes, be4]

/-- SHA-256 always emits a 32-byte digest. -/
theorem sha256_length (msg : List Nat) : (sha256 msg).length = 32 :=
  ShaRegs.length_toBytes _

/-- Unfold one step of the signature-loop fold. -/
theorem foldlM_sig_cons (f : Nat → CommitSig → Except LcError Nat) (a : Nat)
    (x : CommitSig) (xs : List CommitSig) :
    (x :: xs).foldlM f a = (f a x).bind fun a' => xs.foldlM f a' := rfl

/-- If one entry of the list always errors, the whole fold errors (the `?`
operator aborts the loop at the first failing entry, whichever it is). -/
theorem foldlM_error_of_mem (f : Nat → CommitSig → Except LcError Nat)
    (cs : CommitSig) (hbad : ∀ acc, ∃ e, f acc cs = .error e) :
    ∀ l : List CommitSig, cs ∈ l → ∀ acc, ∃ e, l.foldlM f acc = .error e := by
  intro l
  induction l with
  | nil => intro h; cases h
  | cons hd tl ih =>
    intro hmem acc
    rcases List.mem_cons.mp hmem with heq | htl
    · subst heq
      obtain ⟨e, he⟩ := hbad acc
      exact ⟨e, by rw [foldlM_sig_cons, he]; rfl⟩
    · cases hfa : f acc hd with
      | error e => exact ⟨e, by rw [foldlM_sig_cons, hfa]; rfl⟩
      | ok a =>
        obtain ⟨e, he⟩ := ih htl a
        exact ⟨e, by rw [foldlM_sig_cons, hfa]; exact he⟩

/-- An entry the loop body leaves the accumulator unchanged on can be removed
from the list without changing the fold. -/
theorem foldlM_skip (f : Nat → CommitSig → Except LcError Nat)
    (cs : CommitSig) (hskip : ∀ acc, f acc cs = .ok acc) :
    ∀ (l1 l2 : List CommitSig) (acc : Nat),
      (l1 ++ cs :: l2).foldlM f acc = (l1 ++ l2).foldlM f acc := by
  intro l1
  induction l1 with
  | nil =>
    intro l2 acc
    rw [List.nil_append, List.nil_append, foldlM_sig_cons, hskip acc]
    rfl
  | cons hd tl ih =>
    intro l2 acc
    rw [List.cons_append, List.cons_append, foldlM_sig_cons, foldlM_sig_cons]
    cases hfa : f acc hd with
    | error e => rfl
    | ok a => exact ih l2 a

/-- `2 ^ 64` as a numeral, for `omega`. -/
theorem two_pow_64_eq : (2 : Nat) ^ 64 = 18446744073709551616 := by norm_num

/-- Below `2 ^ 63` the doubling does not wrap, so the computed required power
is the exact floor of `T * 2 / 3`. -/
theorem requiredPower_eq_of_lt (total : Nat) (h : total < 2 ^ 63) :
    requiredPower total = total * 2 / 3 := by
  have h64 : total * 2 < 2 ^ 64 := by
    have : (2 : Nat) ^ 63 = 9223372036854775808 := by norm_num
    omega
  unfold requiredPower
  rw [Nat.mod_eq_of_lt h64]

/-- From `2 ^ 63` on, the doubling wraps and the computed required power is
strictly below the exact floor of `T * 2 / 3`. -/
theorem requiredPower_lt_of_ge (total : Nat) (hlo : 2 ^ 63 ≤ total)
    (hhi : total < 2 ^ 64) : requiredPower total < total * 2 / 3 := by
  have e63 : (2 : Nat) ^ 63 = 9223372036854775808 := by norm_num
  unfold requiredPower
  rw [two_pow_64_eq]
  omega

/-- `verify_header` is the signature loop followed by the threshold
comparison. -/
theorem verifyHeader_eq_map (ed : Ed25519) (vs : ValidatorSet)
    (h : TendermintHeader) :
    verifyHeader ed vs h = (accumulatePower ed vs h).map
      (fun p => decide (p > requiredPower vs.total_voting_power)) := rfl

/-! ## Claim theorems -/

/-- C5: `digest(header)` is the SHA-256 of height (8 big-endian bytes), the
time string's raw bytes, `app_hash` and `validators_hash`, concatenated in
that fixed order; it is a total function producing 32 bytes, and two headers
with identical field values (whatever their commit signatures) produce
identical digests. -/
theorem c5_digest_of_fields :
    (∀ h : TendermintHeader,
       h.digest = sha256 (u64be h.height ++ h.time ++ h.app_hash ++ h.validators_hash)) ∧
    (∀ h : TendermintHeader, h.digest.length = 32) ∧
    (∀ h h' : TendermintHeader, h.height = h'.height → h.time = h'.time →
       h.app_hash = h'.app_hash → h.validators_hash = h'.validators_hash →
       h.digest = h'.digest) := by
  have key : ∀ h : TendermintHeader,
      h.digest = sha256 (u64be h.height ++ h.time ++ h.app_hash ++ h.validators_hash) := by
    intro h
    simp [TendermintHeader.digest, Hasher.finalize, Hasher.update, Hasher.new,
      List.append_assoc]
  refine ⟨key, fun h => by rw [key h]; exact sha256_length _,
    fun h h' h1 h2 h3 h4 => by rw [key h, key h', h1, h2, h3, h4]⟩

/-- C5 witness: a concrete pair of headers that differ only in their commit
signatures has one and the same digest. -/
theorem c5_digest_of_fields_witness :
    (mkHeader []).digest = (mkHeader [csA]).digest :=
  c5_digest_of_fields.2.2 _ _ rfl rfl rfl rfl

/-- C2 (amended with the `T < 2 ^ 63` precondition): when the signature loop
accumulates power `P` without error and the doubling of the total power does
not wrap, `verify_header` returns `Ok` of exactly the comparison
`P > floor(T * 2 / 3)`, so it returns `Ok true` iff `P > floor(T * 2 / 3)`. -/
theorem c2_threshold_iff (ed : Ed25519) (vs : ValidatorSet)
    (h : TendermintHeader) (P : Nat)
    (hacc : accumulatePower ed vs h = .ok P)
    (hT : vs.total_voting_power < 2 ^ 63) :
    verifyHeader ed vs h = .ok (decide (P > vs.total_voting_power * 2 / 3)) ∧
    (verifyHeader ed vs h = .ok true ↔ P > vs.total_voting_power * 2 / 3) := by
  have heq : verifyHeader ed vs h =
      .ok (decide (P > requiredPower vs.total_voting_power)) := by
    rw [verifyHeader_eq_map, hacc]; rfl
  rw [requiredPower_eq_of_lt _ hT] at heq
  refine ⟨heq, ?_⟩
  rw [heq]
  constructor
  · intro hok
    exact of_decide_eq_true (Except.ok.inj hok)
  · intro hgt
    exact congrArg Except.ok (decide_eq_true hgt)

set_option maxRecDepth 400000 in
/-- C2 witness: one valid signature among three equal-weight validators
(`P = 100`, `T = 300`) is decided by the exact threshold formula and is
rejected. -/
theorem c2_threshold_iff_witness :
    verifyHeader edAcceptAll vset3 (mkHeader [csA]) =
      .ok (decide (100 > vset3.total_voting_power * 2 / 3)) ∧
    (verifyHeader edAcceptAll vset3 (mkHeader [csA]) = .ok true ↔
      100 > vset3.total_voting_power * 2 / 3) :=
  c2_threshold_iff edAcceptAll vset3 (mkHeader [csA]) 100 (by decide) (by decide)

set_option maxRecDepth 400000 in
/-- C2 counterexample: with total power `T = 2 ^ 63` (powers summing to the
total) and a single validly-signing validator of power 1, the code accepts
(`Ok true`) although `1 > floor(T * 2 / 3)` is false — the doubling wrapped
to 0. -/
theorem c2_threshold_iff_cex :
    accumulatePower edAcceptAll vsetHuge (mkHeader [csA]) = .ok 1 ∧
    verifyHeader edAcceptAll vsetHuge (mkHeader [csA]) = .ok true ∧
    ¬ (1 > vsetHuge.total_voting_power * 2 / 3) := by
  refine ⟨by decide, by decide, ?_⟩
  show ¬ (1 > 2 ^ 63 * 2 / 3)
  norm_num

/-- C9: `required_power` is `(T * 2) % 2 ^ 64 / 3`, and the accept decision
of `verify_header` is the comparison against it; below `2 ^ 63` this equals
the exact `floor(T * 2 / 3)`, while for every representable `T ≥ 2 ^ 63` it
differs, and some accumulable power `P` is accepted by the code but rejected
by the exact formula. -/
theorem c9_required_power_u64 :
    (∀ (ed : Ed25519) (vs : ValidatorSet) (h : TendermintHeader) (P : Nat),
       accumulatePower ed vs h = .ok P →
       verifyHeader ed vs h = .ok (decide (P > requiredPower vs.total_voting_power))) ∧
    (∀ total : Nat, total < 2 ^ 63 → requiredPower total = total * 2 / 3) ∧
    (∀ total : Nat, 2 ^ 63 ≤ total → total < 2 ^ 64 →
       requiredPower total ≠ total * 2 / 3 ∧
       ∃ P, P < 2 ^ 64 ∧ P > requiredPower total ∧ ¬ P > total * 2 / 3) := by
  refine ⟨fun ed vs h P hacc => by rw [verifyHeader_eq_map, hacc]; rfl,
    requiredPower_eq_of_lt, fun total hlo hhi => ?_⟩
  have hlt := requiredPower_lt_of_ge total hlo hhi
  refine ⟨Nat.ne_of_lt hlt, requiredPower total + 1, ?_, Nat.lt_succ_self _, by omega⟩
  rw [two_pow_64_eq] at hhi ⊢
  omega

set_option maxRecDepth 400000 in
/-- C9 witness: the wrap is real — at `T = 2 ^ 63` the code accepts a single
power-1 vote, and the computed required power differs from the exact
formula. -/
theorem c9_required_power_u64_witness :
    verifyHeader edAcceptAll vsetHuge (mkHeader [csA]) =
      .ok (decide (1 > requiredPower vsetHuge.total_voting_power)) ∧
    requiredPower 300 = 200 ∧
    requiredPower (2 ^ 63) ≠ 2 ^ 63 * 2 / 3 := by
  refine ⟨c9_required_power_u64.1 edAcceptAll vsetHuge (mkHeader [csA]) 1 (by decide),
    ?_, (c9_required_power_u64.2.2 (2 ^ 63) (Nat.le_refl _) (by norm_num)).1⟩
  have := c9_required_power_u64.2.1 300 (by norm_num)
  simpa using this

set_option maxRecDepth 400000 in
/-- C1 (code bug): `verify_header` has no seen-set, so the same validator's
valid commit signature submitted three times accumulates its voting power
three times (300, not 100) and flips the accept decision for the 3-by-100
validator set. -/
theorem c1_duplicates_are_double_counted :
    accumulatePower edAcceptAll vset3 (mkHeader [csA, csA, csA]) = .ok 300 ∧
    verifyHeader edAcceptAll vset3 (mkHeader [csA, csA, csA]) = .ok true ∧
    accumulatePower edAcceptAll vset3 (mkHeader [csA]) = .ok 100 ∧
    verifyHeader edAcceptAll vset3 (mkHeader [csA]) = .ok false := by
  exact ⟨by decide, by decide, by decide, by decide⟩

set_option maxRecDepth 400000 in
/-- C6 (code bug): neither the `ValidatorSet` literal nor `LightClient::new`
checks the voting-power invariant; a set whose recorded total (999)
disagrees with the real sum (100) is stored as-is and visibly changes the
outcome of `verify_header` against the same single valid signature. -/
theorem c6_no_construction_check :
    (LightClient.new badSet).trusted_validators = badSet ∧
    sumVotingPower badSet = 100 ∧
    badSet.total_voting_power = 999 ∧
    verifyHeader edAcceptAll badSet (mkHeader [csA]) = .ok false ∧
    verifyHeader edAcceptAll goodSet (mkHeader [csA]) = .ok true := by
  exact ⟨rfl, by decide, rfl, by decide, by decide⟩

/-- C8 (code bug): the endpoint is a stub — `instantiate` stores nothing,
`verify_proof` accepts every proof, touches no storage, and `query` returns
the hard-coded pair `("demo_app_hash", 1000)` whatever the state, in
particular before any submission. -/
theorem c8_endpoint_is_stubbed :
    instantiateContract.latest = none ∧
    queryLatestAppHash instantiateContract =
      ⟨some "demo_app_hash", some 1000⟩ ∧
    (∀ (st : ContractState) (proof publicInputs : List Nat),
       (verify_proof st proof publicInputs).1 = st ∧
       ("result", "verified") ∈ (verify_proof st proof publicInputs).2) ∧
    (∀ st st' : ContractState, queryLatestAppHash st = queryLatestAppHash st') := by
  refine ⟨rfl, rfl, fun st proof publicInputs => ⟨rfl, ?_⟩, fun st st' => rfl⟩
  simp [verify_proof]

/-- C3 (amended): a commit signature that MATCHES a validator and has a
wrong-length signature, or whose matched validator has a wrong-length public
key, makes the loop body return the corresponding length error for every
Ed25519 oracle (so before any cryptographic work on the entry), and the
presence of any such entry makes `verify_header` return an error, never a
boolean. -/
theorem c3_matched_malformed_is_error (ed : Ed25519) (vs : ValidatorSet)
    (h : TendermintHeader) :
    (∀ (dgst : List Nat) (acc : Nat) (cs : CommitSig) (v : Validator),
       findValidator vs cs = some v →
       v.pub_key.length ≠ 32 ∨ cs.signature.length ≠ 64 →
       ∃ e, (e = LcError.invalidPublicKeyLength ∨ e = LcError.invalidSignatureLength) ∧
         ∀ ed' : Ed25519, processSig ed' vs dgst acc cs = .error e) ∧
    ((∃ cs ∈ h.commit_signatures, ∃ v, findValidator vs cs = some v ∧
        (v.pub_key.length ≠ 32 ∨ cs.signature.length ≠ 64)) →
      ∃ e, verifyHeader ed vs h = .error e) := by
  have part1 : ∀ (dgst : List Nat) (acc : Nat) (cs : CommitSig) (v : Validator),
      findValidator vs cs = some v →
      v.pub_key.length ≠ 32 ∨ cs.signature.length ≠ 64 →
      ∃ e, (e = LcError.invalidPublicKeyLength ∨ e = LcError.invalidSignatureLength) ∧
        ∀ ed' : Ed25519, processSig ed' vs dgst acc cs = .error e := by
    intro dgst acc cs v hfind hbad
    by_cases hpk : v.pub_key.length = 32
    · have hsig : cs.signature.length ≠ 64 := by tauto
      exact ⟨.invalidSignatureLength, Or.inr rfl, fun ed' => by
        simp [processSig, hfind, hpk, hsig]⟩
    · exact ⟨.invalidPublicKeyLength, Or.inl rfl, fun ed' => by
        simp [processSig, hfind, hpk]⟩
  refine ⟨part1, ?_⟩
  intro hex
  obtain ⟨cs, hmem, v, hfind, hbad⟩ := hex
  obtain ⟨e, he⟩ := foldlM_error_of_mem (processSig ed vs h.digest) cs
    (fun acc => by
      obtain ⟨e, _, hall⟩ := part1 h.digest acc cs v hfind hbad
      exact ⟨e, hall ed⟩)
    h.commit_signatures hmem 0
  refine ⟨e, ?_⟩
  rw [verifyHeader_eq_map]
  unfold accumulatePower
  rw [he]
  rfl

set_option maxRecDepth 400000 in
/-- C3 counterexample: a 63-byte signature whose address matches no
validator of the set is skipped entirely — `verify_header` returns
`Ok false`, not a malformed-input error, so the claim as stated (any
wrong-length signature fails the call) is false on the code. -/
theorem c3_unmatched_bad_length_cex :
    csBadLen.signature.length = 63 ∧
    (mkHeader [csBadLen]).commit_signatures = [csBadLen] ∧
    verifyHeader edAcceptAll vset3 (mkHeader [csBadLen]) = .ok false := by
  exact ⟨by decide, rfl, by decide⟩

set_option maxRecDepth 400000 in
/-- C3 witness: a matched validator with a 31-byte public key makes the
whole call fail. -/
theorem c3_matched_malformed_is_error_witness :
    ∃ e, verifyHeader edAcceptAll vsetShort (mkHeader [csShort]) = .error e :=
  (c3_matched_malformed_is_error edAcceptAll vsetShort (mkHeader [csShort])).2
    ⟨csShort, by decide, ⟨pkShort, 10⟩, by decide, Or.inl (by decide)⟩

/-- C4: an unmatched commit signature is skipped, a matched-but-invalid one
(well-formed lengths, decodable key, failing verification) contributes zero,
and removing such an entry from the header leaves the result of
`verify_header` unchanged — the call is decided by the remaining
signatures. -/
theorem c4_unknown_and_invalid_ignored (ed : Ed25519) (vs : ValidatorSet) :
    (∀ (dgst : List Nat) (acc : Nat) (cs : CommitSig),
       findValidator vs cs = none → processSig ed vs dgst acc cs = .ok acc) ∧
    (∀ (dgst : List Nat) (acc : Nat) (cs : CommitSig) (v : Validator),
       findValidator vs cs = some v → v.pub_key.length = 32 →
       cs.signature.length = 64 → ed.decodes v.pub_key = true →
       ed.valid v.pub_key dgst cs.signature = false →
       processSig ed vs dgst acc cs = .ok acc) ∧
    (∀ (ht : Nat) (tm ah vh : List Nat) (l1 l2 : List CommitSig) (cs : CommitSig),
       (findValidator vs cs = none ∨
         ∃ v, findValidator vs cs = some v ∧ v.pub_key.length = 32 ∧
           cs.signature.length = 64 ∧ ed.decodes v.pub_key = true ∧
           ed.valid v.pub_key
             (TendermintHeader.digest ⟨ht, tm, ah, vh, l1 ++ cs :: l2⟩)
             cs.signature = false) →
       verifyHeader ed vs ⟨ht, tm, ah, vh, l1 ++ cs :: l2⟩ =
         verifyHeader ed vs ⟨ht, tm, ah, vh, l1 ++ l2⟩) := by
  have skip1 : ∀ (dgst : List Nat) (acc : Nat) (cs : CommitSig),
      findValidator vs cs = none → processSig ed vs dgst acc cs = .ok acc := by
    intro dgst acc cs hfind
    simp [processSig, hfind]
  have skip2 : ∀ (dgst : List Nat) (acc : Nat) (cs : CommitSig) (v : Validator),
      findValidator vs cs = some v → v.pub_key.length = 32 →
      cs.signature.length = 64 → ed.decodes v.pub_key = true →
      ed.valid v.pub_key dgst cs.signature = false →
      processSig ed vs dgst acc cs = .ok acc := by
    intro dgst acc cs v hfind h32 h64 hdec hval
    simp [processSig, hfind, h32, h64, hdec, hval]
  refine ⟨skip1, skip2, ?_⟩
  intro ht tm ah vh l1 l2 cs hcs
  have hskip : ∀ acc,
      processSig ed vs (TendermintHeader.digest ⟨ht, tm, ah, vh, l1 ++ cs :: l2⟩)
        acc cs = .ok acc := by
    intro acc
    rcases hcs with hnone | ⟨v, hfind, h32, h64, hdec, hval⟩
    · exact skip1 _ acc cs hnone
    · exact skip2 _ acc cs v hfind h32 h64 hdec hval
  have hacc : accumulatePower ed vs ⟨ht, tm, ah, vh, l1 ++ cs :: l2⟩ =
      accumulatePower ed vs ⟨ht, tm, ah, vh, l1 ++ l2⟩ := by
    unfold accumulatePower
    exact foldlM_skip _ cs hskip l1 l2 0
  rw [verifyHeader_eq_map, verifyHeader_eq_map, hacc]

set_option maxRecDepth 400000 in
/-- C4 witness: dropping an unknown-address commit signature from a concrete
header leaves the verification outcome unchanged. -/
theorem c4_unknown_and_invalid_ignored_witness :
    verifyHeader edAcceptAll vset3
      ⟨1000, [], List.replicate 32 42, List.replicate 32 24,
        [] ++ csUnknown :: [csA, csB]⟩ =
    verifyHeader edAcceptAll vset3
      ⟨1000, [], List.replicate 32 42, List.replicate 32 24, [] ++ [csA, csB]⟩ :=
  (c4_unknown_and_invalid_ignored edAcceptAll vset3).2.2 1000 [] _ _ [] [csA, csB]
    csUnknown (Or.inl (by decide))

/-- C10: a matched validator whose 32-byte key fails to decode makes the
loop body return `keyDecodeFailure` (even with a well-formed 64-byte
signature), and the presence of such an entry makes the whole
`verify_header` call return an error instead of a boolean. -/
theorem c10_undecodable_key_aborts (ed : Ed25519) (vs : ValidatorSet)
    (h : TendermintHeader) :
    (∀ (dgst : List Nat) (acc : Nat) (cs : CommitSig) (v : Validator),
       findValidator vs cs = some v → v.pub_key.length = 32 →
       cs.signature.length = 64 → ed.decodes v.pub_key = false →
       processSig ed vs dgst acc cs = .error .keyDecodeFailure) ∧
    ((∃ cs ∈ h.commit_signatures, ∃ v, findValidator vs cs = some v ∧
        v.pub_key.length = 32 ∧ cs.signature.length = 64 ∧
        ed.decodes v.pub_key = false) →
      ∃ e, verifyHeader ed vs h = .error e) := by
  have part1 : ∀ (dgst : List Nat) (acc : Nat) (cs : CommitSig) (v : Validator),
      findValidator vs cs = some v → v.pub_key.length = 32 →
      cs.signature.length = 64 → ed.decodes v.pub_key = false →
      processSig ed vs dgst acc cs = .error .keyDecodeFailure := by
    intro dgst acc cs v hfind h32 h64 hdec
    simp [processSig, hfind, h32, h64, hdec]
  refine ⟨part1, ?_⟩
  intro hex
  obtain ⟨cs, hmem, v, hfind, h32, h64, hdec⟩ := hex
  obtain ⟨e, he⟩ := foldlM_error_of_mem (processSig ed vs h.digest) cs
    (fun acc => ⟨.keyDecodeFailure, part1 h.digest acc cs v hfind h32 h64 hdec⟩)
    h.commit_signatures hmem 0
  refine ⟨e, ?_⟩
  rw [verifyHeader_eq_map]
  unfold accumulatePower
  rw [he]
  rfl

set_option maxRecDepth 400000 in
/-- C10 witness: with `pkB` undecodable the whole call errors, although the
two decodable validators alone (power 400 of 500, threshold 333) would have
cleared the threshold. -/
theorem c10_undecodable_key_aborts_witness :
    (∃ e, verifyHeader edRejectB vsetWeighted (mkHeader [csA, csB, csC]) = .error e) ∧
    verifyHeader edRejectB vsetWeighted (mkHeader [csA, csC]) = .ok true :=
  ⟨(c10_undecodable_key_aborts edRejectB vsetWeighted (mkHeader [csA, csB, csC])).2
      ⟨csB, by decide, ⟨pkB, 100⟩, by decide, by decide, by decide, by decide⟩,
   by decide⟩

/-- C7: in prove mode `generate_constraints` fails with `AssignmentMissing`
exactly when one of `a`, `b`, `c` was not supplied, and succeeds when all
three are; in setup mode the value closures are never consulted, so it
succeeds even with every value missing — which is what the placeholder
circuit of `ZkProver::setup` relies on. -/
theorem c7_generate_constraints_assignment :
    (∀ (circ : AddCircuit) (cs : R1CS), cs.mode = .prove →
       ((circ.a = none ∨ circ.b = none ∨ circ.c = none) →
          generate_constraints circ cs = .error .assignmentMissing) ∧
       (∀ x y z, circ.a = some x → circ.b = some y → circ.c = some z →
          ∃ cs', generate_constraints circ cs = .ok cs')) ∧
    (∀ (circ : AddCircuit) (cs : R1CS), cs.mode = .setup →
       ∃ cs', generate_constraints circ cs = .ok cs') ∧
    (∃ cs', setupSynthesize = .ok cs') := by
  refine ⟨?_, ?_, ⟨_, rfl⟩⟩
  · intro circ cs hmode
    obtain ⟨m, ia, wa, nc⟩ := cs
    obtain ⟨a, c, b⟩ := circ
    cases m with
    | setup => cases hmode
    | prove =>
      constructor
      · intro hmiss
        rcases hmiss with ha | hb | hc
        · subst ha
          cases b <;> cases c <;> rfl
        · subst hb
          cases a <;> cases c <;> rfl
        · subst hc
          cases a <;> cases b <;> rfl
      · intro x y z ha hb hc
        subst ha; subst hb; subst hc
        exact ⟨_, rfl⟩
  · intro circ cs hmode
    obtain ⟨m, ia, wa, nc⟩ := cs
    obtain ⟨a, c, b⟩ := circ
    cases m with
    | setup => exact ⟨_, rfl⟩
    | prove => cases hmode

/-- C7 witness: a missing `a` in prove mode is `AssignmentMissing`, a full
assignment succeeds, and the all-`None` setup circuit synthesizes fine. -/
theorem c7_generate_constraints_assignment_witness :
    generate_constraints ⟨none, some 2, some 1⟩ (freshCS .prove) =
      .error .assignmentMissing ∧
    (∃ cs', generate_constraints ⟨some 1, some 2, some 1⟩ (freshCS .prove) = .ok cs') ∧
    (∃ cs', setupSynthesize = .ok cs') :=
  ⟨(c7_generate_constraints_assignment.1 ⟨none, some 2, some 1⟩
      (freshCS .prove) rfl).1 (Or.inl rfl),
   (c7_generate_constraints_assignment.1 ⟨some 1, some 2, some 1⟩
      (freshCS .prove) rfl).2 1 1 2 rfl rfl rfl,
   c7_generate_constraints_assignment.2.2⟩
